import Mathlib

/-!
Verification of the core logic of the kosh FCS endpoint
(`src/kosh/api/fcs.py` and `src/kosh/elastic/search.py`).

The development shallowly embeds, directly from the Python source:
* the result-set cursor `KoshFCSSearchResultSet` (constructor window
  arithmetic, `get_total_record_count`, `get_record_count`, `next_record`);
* the executor `search.entries` (the slice applied to the backend query,
  and the fail-open `try/except` that converts any backend exception into
  an empty hit list);
* the CQL-to-CQP translator `_cql2cqp` (term lowercasing, whitespace
  splitting, the asymmetric quote-stripping, and the error cases);
* the highlight-marker decoding loop of
  `KoshFCSSearchResultSet.write_record`.

Machine integers are modelled as `Nat`/`Int`; Python exceptions are
modelled by `Option`/`Except` (a `none`/`.error` result marks the raising
path); Python lists and strings are Lean lists (strings as `List Char`).
-/

/-! ## Result-set cursor: `KoshFCSSearchResultSet` (fcs.py lines 76-133)

The `results` field is `Optional[List[...]]` in the source; Python
truthiness of `self.results` (false for `None` *and* for the empty list)
is embedded explicitly wherever the source tests `if self.results`. -/

/-- State of a `KoshFCSSearchResultSet` (fcs.py lines 76-100): the optional
hit list plus the pagination fields set up by `__init__`. The element type
of a hit is abstract (`α`); none of the cursor logic inspects hits. -/
structure KoshFCSSearchResultSet (α : Type) where
  results : Option (List α)
  start_record : Nat
  current_record_cursor : Nat
  maximum_records : Nat
  record_count : Nat

/-- Embedding of `KoshFCSSearchResultSet.__init__` (fcs.py lines 89-100).
A request is modelled as `some (startReq, maxReq)` carrying
`get_start_record()` and `get_maximum_records()`; `none` is the
`request=None` default branch with its fixed window of 250. -/
def mkResultSet {α : Type} (results : Option (List α))
    (req : Option (Nat × Nat)) : KoshFCSSearchResultSet α :=
  match req with
  | some (startReq, maxReq) =>
      { results := results
        start_record := max 1 startReq
        current_record_cursor := max 1 startReq - 1
        maximum_records := max 1 startReq - 1 + maxReq
        record_count := maxReq }
  | none =>
      { results := results
        start_record := 1
        current_record_cursor := 0
        maximum_records := 250
        record_count := 250 }

/-- Embedding of `get_total_record_count` (fcs.py lines 102-105):
`if self.results: return len(self.results); return -1`. Python truthiness
makes both `None` and `[]` take the `-1` branch. -/
def get_total_record_count {α : Type} (rs : KoshFCSSearchResultSet α) : Int :=
  match rs.results with
  | some l => if l.isEmpty then -1 else (l.length : Int)
  | none => -1

/-- Embedding of `get_record_count` (fcs.py lines 107-113). The source
condition is `if self.results and len(self.results) > -1:`; the (vacuous)
integer comparison is kept verbatim. -/
def get_record_count {α : Type} (rs : KoshFCSSearchResultSet α) : Nat :=
  match rs.results with
  | some l =>
      if l.isEmpty = false ∧ (l.length : Int) > -1 then
        if l.length < rs.maximum_records then l.length else rs.maximum_records
      else 0
  | none => 0

/-- Embedding of `next_record` (fcs.py lines 127-133). The source
evaluates `len(self.results)` unconditionally, so with `results = None`
Python raises `TypeError`; that raising path is the `none` result. On a
present list the call returns the boolean and the successor state. -/
def next_record {α : Type} (rs : KoshFCSSearchResultSet α) :
    Option (Bool × KoshFCSSearchResultSet α) :=
  match rs.results with
  | none => none
  | some l =>
      if rs.current_record_cursor < min l.length rs.maximum_records then
        some (true, { rs with current_record_cursor := rs.current_record_cursor + 1 })
      else
        some (false, rs)

/-- Trace of `n` successive `next_record` calls, threading the state;
`none` if any call hits the raising path. -/
def advanceTrace {α : Type} : Nat → KoshFCSSearchResultSet α → Option (List Bool)
  | 0, _ => some []
  | n + 1, rs =>
      match next_record rs with
      | none => none
      | some (b, rs2) => (advanceTrace n rs2).map (fun bs => b :: bs)

/-! ## Executor: `search.entries` (search.py lines 35-82) -/

/-- Embedding of the slice `find[offset:size]` built in `search.entries`
(search.py line 56) over the backend's full match list: Python slice
semantics select the half-open index window from `offset` to `size`
(i.e. `drop offset` then `take (size - offset)`). -/
def entriesSlice {α : Type} (offset size : Nat) (allHits : List α) : List α :=
  (allHits.drop offset).take (size - offset)

/-- The window the spec requests for `search.entries`, stated from the
spec's words for comparison with `entriesSlice`: `[offset, offset+size)`,
i.e. `size` records starting at `offset`. -/
def specWindow {α : Type} (offset size : Nat) (allHits : List α) : List α :=
  (allHits.drop offset).take size

/-- Embedding of the `try/except` body of `search.entries` (search.py
lines 55-82): the backend `.execute()` outcome is `Except ε (List β)`
(`.error` = an exception raised during execution); on success each raw
hit is normalized (the per-hit dict construction, abstracted as
`normalize` since it only repackages external library objects), and any
exception yields the empty list instead of propagating. -/
def entries {ε β α : Type} (normalize : β → α) (outcome : Except ε (List β)) :
    List α :=
  match outcome with
  | Except.ok hits => hits.map normalize
  | Except.error _ => []

/-! ## Query translation: `_cql2cqp` (fcs.py lines 49-73) -/

/-- Parsed CQL query tree as dispatched on by `_cql2cqp`: a boolean
triple (operator name and operands), a search clause (term string), or
any other node shape (the fall-through of the `isinstance` chain,
carried with its textual representation). -/
inductive CQLNode
  | triple (op : List Char) (lhs rhs : CQLNode)
  | clause (term : List Char)
  | unknown (repr : List Char)

/-- SRU errors raised by `_cql2cqp` (fcs.py lines 56-60 and 70-73). -/
inductive SRUErr
  | unsupportedOperator (op : List Char)
  | cannotProcessQuery (msg : List Char)

/-- Quote characters stripped by `term.strip("\"'")` (fcs.py line 67):
the double quote and the apostrophe (code point 39). -/
def isQuoteChar (c : Char) : Bool := c == '"' || c == Char.ofNat 39

/-- Embedding of `str.lower()` character-wise (ASCII range, which covers
every input the endpoint's claims exercise). -/
def lowerStr (s : List Char) : List Char := s.map Char.toLower

/-- Embedding of `str.strip("\"'")`: drop quote characters from both
ends, each end independently, until a non-quote character. -/
def stripQuotes (s : List Char) : List Char :=
  ((s.dropWhile isQuoteChar).reverse.dropWhile isQuoteChar).reverse

/-- Worker for `splitWs`: accumulates the current (reversed) token. -/
def splitWsAux : List Char → List Char → List (List Char)
  | [], acc => if acc.isEmpty then [] else [acc.reverse]
  | c :: rest, acc =>
      if c.isWhitespace then
        if acc.isEmpty then splitWsAux rest []
        else acc.reverse :: splitWsAux rest []
      else splitWsAux rest (c :: acc)

/-- Embedding of argumentless `str.split()`: split on runs of
whitespace, producing no empty tokens. -/
def splitWs (s : List Char) : List (List Char) := splitWsAux s []

/-- Embedding of the `CQLSearchClause` branch of `_cql2cqp` (fcs.py
lines 62-68): lowercase, whitespace-split; a single token is returned
as-is (`terms[0]`), otherwise each token is quote-stripped and the
tokens are rejoined with single spaces. -/
def cql2cqpClause (term : List Char) : List Char :=
  let terms := splitWs (lowerStr term)
  if terms.length = 1 then terms.headI
  else List.intercalate [' '] (terms.map stripQuotes)

/-- Embedding of `_cql2cqp` (fcs.py lines 49-73): a `CQLTriple` fails
with the unsupported-operator diagnostic carrying the operator name, a
`CQLSearchClause` is translated, and any other node fails with the
cannot-process-query diagnostic. -/
def cql2cqp : CQLNode → Except SRUErr (List Char)
  | CQLNode.triple op _ _ => Except.error (SRUErr.unsupportedOperator op)
  | CQLNode.clause term => Except.ok (cql2cqpClause term)
  | CQLNode.unknown r => Except.error (SRUErr.cannotProcessQuery r)

/-- Embedding of `KoshFCSEndpointSearchEngine.search` for a CQL request
(fcs.py lines 226-257): translate first (translation errors propagate
before any backend interaction — the `backend` function is never
applied), then run `search.entries` and wrap the results in a
`KoshFCSSearchResultSet` built without a request (the source passes no
`request`, fcs.py line 255). -/
def engineSearch {α : Type} (backend : List Char → Except Unit (List α))
    (node : CQLNode) : Except SRUErr (KoshFCSSearchResultSet α) :=
  match cql2cqp node with
  | Except.error e => Except.error e
  | Except.ok q => Except.ok (mkResultSet (some (entries id (backend q))) none)

/-! ## Highlight decoding: the marker loop of `write_record`
(fcs.py lines 164-178)

The loop works on a Python string; here text is `List Char`. The two
markers are the literal sentinels of the source (fcs.py lines 164-165),
written as character lists. -/

/-- Start marker `marker_s` of `write_record` (fcs.py line 164). -/
def markerS : List Char :=
  ['{', '{', '{', '#', '!', 'H', 'L', 'S', '!', '#', '}', '}', '}']

/-- End marker `marker_e` of `write_record` (fcs.py line 165). -/
def markerE : List Char :=
  ['{', '{', '{', '#', '!', 'H', 'L', 'E', '!', '#', '}', '}', '}']

/-- Whether `pat` matches `t` at its head position. -/
def matchHere : List Char → List Char → Bool
  | [], _ => true
  | _ :: _, [] => false
  | a :: as, b :: bs => a == b && matchHere as bs

/-- Index of the first occurrence of `pat` in `t` (Python `str.index`,
`none` for the raising case / `not in`). -/
def firstIdx? (pat : List Char) : List Char → Option Nat
  | [] => if matchHere pat [] then some 0 else none
  | c :: rest =>
      if matchHere pat (c :: rest) then some 0
      else (firstIdx? pat rest).map (· + 1)

/-- Embedding of the Python `in` substring test. -/
def occursIn (pat t : List Char) : Bool := (firstIdx? pat t).isSome

/-- Embedding of `text[:i] + text[i + len:]`: remove `len` characters
starting at index `i`. -/
def pyRemoveAt (t : List Char) (i len : Nat) : List Char :=
  t.take i ++ t.drop (i + len)

/-- Embedding of the `while marker_s in text and marker_e in text` loop
of `write_record` (fcs.py lines 173-178), with explicit fuel (each
iteration shortens the text by both marker lengths, so any fuel above
the text length suffices). The `none` results are the Python raising
paths: the inner `none`s cover `text.index(marker_e)` raising after the
start marker's removal (unreachable for these markers), and the guard's
`firstIdx? markerS` rematch cannot fail when `occursIn markerS` holds. -/
def decodeLoop : Nat → List Char → Option (List Char × List (Nat × Nat))
  | 0, _ => none
  | fuel + 1, t =>
      if occursIn markerS t && occursIn markerE t then
        match firstIdx? markerS t with
        | none => none
        | some i =>
            match firstIdx? markerE (pyRemoveAt t i markerS.length) with
            | none => none
            | some j =>
                match decodeLoop fuel
                    (pyRemoveAt (pyRemoveAt t i markerS.length) j markerE.length) with
                | none => none
                | some (u, spans) => some (u, (i, j) :: spans)
      else some (t, [])

/-- Highlight decoding of `write_record`: run the marker loop with
sufficient fuel, returning the marker-stripped plain text and the
accumulated `(start, end)` spans in emission order. -/
def decodeHighlights (t : List Char) : Option (List Char × List (Nat × Nat)) :=
  decodeLoop (t.length + 1) t

/-- Well-formedness of a marked text, in the sense the spec demands for
valid offsets: either no marker occurs at all, or the first start marker
(at `i`) is followed — in the text with that marker removed — by the
first end marker (at `j ≥ i`), every later start marker lies at or after
`j`, and the text with both markers removed is again well-formed. The
end-marker containment of the loop guard is recorded as well. -/
inductive WellMarked : List Char → Prop
  | nil (t : List Char)
      (hS : firstIdx? markerS t = none)
      (hE : firstIdx? markerE t = none) : WellMarked t
  | cons (t : List Char) (i j : Nat)
      (hS : firstIdx? markerS t = some i)
      (hEt : occursIn markerE t = true)
      (hE : firstIdx? markerE (pyRemoveAt t i markerS.length) = some j)
      (hij : i ≤ j)
      (hnext : ∀ i', firstIdx? markerS
          (pyRemoveAt (pyRemoveAt t i markerS.length) j markerE.length) = some i' →
          j ≤ i')
      (hrest : WellMarked
          (pyRemoveAt (pyRemoveAt t i markerS.length) j markerE.length)) :
      WellMarked t

/-- Marked text of the spec's decoding example: `"a" + START + "b" + END + " c"`. -/
def exMarked : List Char :=
  'a' :: (markerS ++ ('b' :: (markerE ++ [' ', 'c'])))

/-! ## Helper lemmas -/

/-- The `results` field of a constructed result set is the list passed in,
whichever request branch `__init__` takes. -/
theorem mkResultSet_results {α : Type} (results : Option (List α))
    (req : Option (Nat × Nat)) : (mkResultSet results req).results = results := by
  rcases req with _ | ⟨s, m⟩ <;> rfl

/-- A pattern matching at a position fits inside the text. -/
theorem matchHere_length : ∀ {p t : List Char}, matchHere p t = true →
    p.length ≤ t.length := by
  intro p
  induction p with
  | nil => intro t _; simp
  | cons a as ih =>
      intro t h
      cases t with
      | nil => simp [matchHere] at h
      | cons b bs =>
          simp only [matchHere, Bool.and_eq_true] at h
          simpa using ih h.2

/-- A first-occurrence index is a valid occurrence: the pattern fits in
the text starting there. -/
theorem firstIdx?_valid : ∀ (pat t : List Char) (i : Nat),
    firstIdx? pat t = some i → i + pat.length ≤ t.length := by
  intro pat t
  induction t with
  | nil =>
      intro i h
      simp only [firstIdx?] at h
      split at h
      · next hm =>
          cases h
          simpa using matchHere_length hm
      · exact Option.noConfusion h
  | cons c rest ih =>
      intro i h
      simp only [firstIdx?] at h
      split at h
      · next hm =>
          cases h
          simpa using matchHere_length hm
      · rw [Option.map_eq_some'] at h
        obtain ⟨i0, h0, rfl⟩ := h
        have := ih i0 h0
        simp only [List.length_cons]
        omega

/-- Length of a removal: removing `len` characters at a valid position
shortens the text by exactly `len`. -/
theorem pyRemoveAt_length {t : List Char} {i len : Nat} (h : i + len ≤ t.length) :
    (pyRemoveAt t i len).length = t.length - len := by
  simp only [pyRemoveAt, List.length_append, List.length_take, List.length_drop]
  omega

/-- Closed form of the cursor trace on a present hit list: the `k`-th of
`n` successive `next_record` calls succeeds exactly when
`cur + k < min (length) (maximum_records)`, where `cur` is the cursor at
the start of the run. -/
theorem advanceTrace_present {α : Type} (l : List α) (sr mx rc : Nat) :
    ∀ (n cur : Nat),
      advanceTrace n
          (⟨some l, sr, cur, mx, rc⟩ : KoshFCSSearchResultSet α) =
        some ((List.range n).map fun k => decide (cur + k < min l.length mx)) := by
  intro n
  induction n with
  | zero => intro cur; simp [advanceTrace]
  | succ n ih =>
      intro cur
      by_cases h : cur < min l.length mx
      · simp only [advanceTrace, next_record, h, if_true]
        rw [ih (cur + 1)]
        simp only [Option.map_some', List.range_succ_eq_map, List.map_cons,
          List.map_map, Option.some.injEq, List.cons.injEq]
        refine ⟨by simpa using h, ?_⟩
        apply List.map_congr_left
        intro k _
        simp only [Function.comp_apply]
        apply decide_eq_decide.mpr
        omega
      · simp only [advanceTrace, next_record, h, if_false]
        rw [ih cur]
        simp only [Option.map_some', List.range_succ_eq_map, List.map_cons,
          List.map_map, Option.some.injEq, List.cons.injEq]
        refine ⟨by simpa using h, ?_⟩
        apply List.map_congr_left
        intro k _
        simp only [Function.comp_apply]
        apply decide_eq_decide.mpr
        omega

/-- Main invariant of the decoding loop on well-formed marked text: the
loop finishes normally (never hits a raising path) on any sufficient
fuel, every emitted span is ordered and bounded by the final text, and
the final text keeps at least `q` characters whenever every removal
position is at least `q`. -/
theorem decodeLoop_wellMarked {t : List Char} (hw : WellMarked t) :
    ∀ fuel, t.length < fuel →
      ∃ u spans, decodeLoop fuel t = some (u, spans) ∧
        (∀ sp : Nat × Nat, sp ∈ spans → sp.1 ≤ sp.2 ∧ sp.2 ≤ u.length) ∧
        (∀ q, q ≤ t.length →
          (∀ i', firstIdx? markerS t = some i' → q ≤ i') → q ≤ u.length) := by
  induction hw with
  | nil t hS hE =>
      intro fuel hf
      cases fuel with
      | zero => omega
      | succ f =>
          refine ⟨t, [], ?_, by simp, fun q hq _ => hq⟩
          simp [decodeLoop, occursIn, hS]
  | cons t i j hS hEt hE hij hnext hrest ih =>
      intro fuel hf
      cases fuel with
      | zero => omega
      | succ f =>
          have hmS : markerS.length = 13 := rfl
          have hmE : markerE.length = 13 := rfl
          have hiv := firstIdx?_valid markerS t i hS
          have hlen1 : (pyRemoveAt t i markerS.length).length
              = t.length - markerS.length := pyRemoveAt_length (by omega)
          have hjv := firstIdx?_valid markerE _ j hE
          have hlen2 : (pyRemoveAt (pyRemoveAt t i markerS.length) j
                markerE.length).length
              = (pyRemoveAt t i markerS.length).length - markerE.length :=
            pyRemoveAt_length (by omega)
          obtain ⟨u, spans, hrun, hsp, hlow⟩ := ih f (by omega)
          have hSo : occursIn markerS t = true := by simp [occursIn, hS]
          refine ⟨u, (i, j) :: spans, ?_, ?_, ?_⟩
          · simp [decodeLoop, hSo, hEt, hS, hE, hrun]
          · intro sp hsp'
            rcases List.mem_cons.mp hsp' with rfl | hmem
            · exact ⟨hij, hlow j (by omega) hnext⟩
            · exact hsp sp hmem
          · intro q hq hqS
            have hqi : q ≤ i := hqS i hS
            exact hlow q (by omega)
              (fun i' h' => le_trans (le_trans hqi hij) (hnext i' h'))

/-! ## Claim theorems -/

/-- C1: the claim says the slice applied to the backend query in
`search.entries` is the window `[offset, offset+size)` (`size` records
starting at `offset`). The code builds `find[offset:size]`, the window
`[offset, size)`: at `offset = 2`, `size = 5` over seven hits it selects
the three records `[2, 3, 4]`, not the five records the claim requires —
the code contradicts its own parameter naming (`size` as a count), so
this is recorded as a code bug, witnessed by this evaluation. -/
theorem claim_c1_slice_code_bug :
    entriesSlice 2 5 (List.range 7) = [2, 3, 4] ∧
    entriesSlice 2 5 (List.range 7) ≠ specWindow 2 5 (List.range 7) := by
  decide

/-- C2 counterexample: the claim says `get_total_record_count` returns the
list's length (hence `0`) for a present but empty hit list. On the code,
Python truthiness sends the empty list to the `-1` branch: the cursor
built from `some []` reports `-1`, not `0`. -/
theorem claim_c2_counterexample :
    get_total_record_count (mkResultSet (some ([] : List Unit)) none) = -1 ∧
    get_total_record_count (mkResultSet (some ([] : List Unit)) none) ≠ 0 := by
  decide

/-- C2 amended: `get_total_record_count` returns `-1` both when the hit
list is absent and when it is present but empty (a valid zero-hit result
is indistinguishable from failure); for a present non-empty hit list it
returns the list's length. -/
theorem claim_c2_amended_total_count (α : Type) (req : Option (Nat × Nat)) :
    get_total_record_count (mkResultSet (none : Option (List α)) req) = -1 ∧
    get_total_record_count (mkResultSet (some ([] : List α)) req) = -1 ∧
    ∀ l : List α, l ≠ [] →
      get_total_record_count (mkResultSet (some l) req) = (l.length : Int) := by
  refine ⟨?_, ?_, ?_⟩
  · simp [get_total_record_count, mkResultSet_results]
  · simp [get_total_record_count, mkResultSet_results]
  · intro l hl
    cases l with
    | nil => exact absurd rfl hl
    | cons a as => simp [get_total_record_count, mkResultSet_results]

/-- C2 amended, witness: on the one-element hit list the amended theorem
yields the exact length `1`. -/
theorem claim_c2_amended_total_count_witness :
    ([0] : List Nat) ≠ [] ∧
    get_total_record_count (mkResultSet (some ([0] : List Nat)) none)
      = (([0] : List Nat).length : Int) :=
  ⟨by decide, (claim_c2_amended_total_count Nat none).2.2 [0] (by decide)⟩

/-- C3: for a cursor built from a present hit list of length `N` and a
request `(startReq, maxReq)` — so `startRecord = max 1 startReq`,
`M = maximum_records = startRecord - 1 + maxReq` — a run of `n`
`next_record` calls never raises and its `k`-th call succeeds exactly
when `k < min N M - (startRecord - 1)` (subtraction in `Nat`): the calls
succeed exactly `min N M - (startRecord - 1)` times and every call after
the first failure also returns `false`. -/
theorem claim_c3_advance_trace (α : Type) (hits : List α)
    (startReq maxReq n : Nat) :
    advanceTrace n (mkResultSet (some hits) (some (startReq, maxReq))) =
      some ((List.range n).map fun k =>
        decide (k < min hits.length (max 1 startReq - 1 + maxReq)
                  - (max 1 startReq - 1))) := by
  rw [show (mkResultSet (some hits) (some (startReq, maxReq)) :
        KoshFCSSearchResultSet α) =
      ⟨some hits, max 1 startReq, max 1 startReq - 1,
       max 1 startReq - 1 + maxReq, maxReq⟩ from rfl]
  rw [advanceTrace_present]
  congr 1
  apply List.map_congr_left
  intro k _
  apply decide_eq_decide.mpr
  omega

/-- C4: any exception during backend execution makes `search.entries`
return the empty hit list instead of propagating, and the result-set
cursor wrapping that empty result reports a total record count of `-1`
(whatever request the cursor is built with). -/
theorem claim_c4_fail_open (ε β α : Type) (normalize : β → α) (e : ε)
    (req : Option (Nat × Nat)) :
    entries normalize (Except.error e) = ([] : List α) ∧
    get_total_record_count
      (mkResultSet (some (entries normalize (Except.error e))) req) = -1 := by
  refine ⟨rfl, ?_⟩
  rcases req with _ | ⟨s, m⟩ <;> rfl

/-- C5: translating a search clause lowercases the term and splits it on
whitespace; a run producing exactly one token returns that token
unmodified (quote characters included), and any other run quote-strips
each token independently and rejoins them with single spaces. -/
theorem claim_c5_clause_translation (term : List Char) :
    (∀ tok, splitWs (lowerStr term) = [tok] →
      cql2cqp (CQLNode.clause term) = Except.ok tok) ∧
    ((splitWs (lowerStr term)).length ≠ 1 →
      cql2cqp (CQLNode.clause term) =
        Except.ok (List.intercalate [' ']
          ((splitWs (lowerStr term)).map stripQuotes))) := by
  constructor
  · intro tok h
    simp [cql2cqp, cql2cqpClause, h]
  · intro h
    simp [cql2cqp, cql2cqpClause, h]

/-- C5 witness: the quoted single token `"cat"` (quotes preserved) and
the spec's multi-token example `"  Cat   Dog  "`. -/
theorem claim_c5_clause_translation_witness :
    cql2cqp (CQLNode.clause "\"cat\"".toList) = Except.ok "\"cat\"".toList ∧
    (splitWs (lowerStr "  Cat   Dog  ".toList)).length ≠ 1 ∧
    cql2cqp (CQLNode.clause "  Cat   Dog  ".toList) =
      Except.ok (List.intercalate [' ']
        ((splitWs (lowerStr "  Cat   Dog  ".toList)).map stripQuotes)) :=
  ⟨(claim_c5_clause_translation _).1 _ (by decide),
   by decide,
   (claim_c5_clause_translation _).2 (by decide)⟩

/-- C6: every `CQLTriple` node is rejected with the unsupported-operator
error carrying the operator name, and every node that is neither a
triple nor a search clause is rejected with the cannot-process-query
error; in both cases the engine's search fails identically for every
backend, i.e. the backend is never consulted. -/
theorem claim_c6_translation_errors (α : Type)
    (backend : List Char → Except Unit (List α))
    (op u : List Char) (lhs rhs : CQLNode) :
    cql2cqp (CQLNode.triple op lhs rhs)
      = Except.error (SRUErr.unsupportedOperator op) ∧
    cql2cqp (CQLNode.unknown u)
      = Except.error (SRUErr.cannotProcessQuery u) ∧
    engineSearch backend (CQLNode.triple op lhs rhs)
      = Except.error (SRUErr.unsupportedOperator op) ∧
    engineSearch backend (CQLNode.unknown u)
      = Except.error (SRUErr.cannotProcessQuery u) :=
  ⟨rfl, rfl, rfl, rfl⟩

/-- C7: decoding `"a" + START + "b" + END + " c"` yields the plain text
`"ab c"` and the single span `(1, 2)` — the start offset is the start
marker's position, the end offset is the end marker's position in the
text after the start marker was removed. -/
theorem claim_c7_decode_example :
    decodeHighlights exMarked = some (['a', 'b', ' ', 'c'], [(1, 2)]) := by
  decide

/-- C8: on well-formed marked text (marker pairs matched, non-overlapping,
in left-to-right order, as captured by `WellMarked`) every span produced
by the decoder satisfies `start ≤ end ≤ length of the returned plain
text` (and `0 ≤ start` holds since offsets are naturals). -/
theorem claim_c8_span_bounds (t : List Char) (hw : WellMarked t) :
    ∃ u spans, decodeHighlights t = some (u, spans) ∧
      ∀ sp : Nat × Nat, sp ∈ spans → sp.1 ≤ sp.2 ∧ sp.2 ≤ u.length := by
  obtain ⟨u, spans, hrun, hsp, _⟩ :=
    decodeLoop_wellMarked hw (t.length + 1) (Nat.lt_succ_self _)
  exact ⟨u, spans, hrun, hsp⟩

/-- C8 witness: the example text is well-formed and its decoded span is
within bounds. -/
theorem claim_c8_span_bounds_witness :
    ∃ u spans, decodeHighlights exMarked = some (u, spans) ∧
      ∀ sp : Nat × Nat, sp ∈ spans → sp.1 ≤ sp.2 ∧ sp.2 ≤ u.length := by
  apply claim_c8_span_bounds
  refine WellMarked.cons exMarked 1 2 (by decide) (by decide) (by decide)
    (by decide) ?_ ?_
  · intro i' h'
    have hx : firstIdx? markerS
        (pyRemoveAt (pyRemoveAt exMarked 1 markerS.length) 2 markerE.length)
        = none := by decide
    rw [hx] at h'
    exact Option.noConfusion h'
  · exact WellMarked.nil _ (by decide) (by decide)

/-- C9: with an absent hit list (`results = None`, the execution-failure
case) `next_record` evaluates `len(None)` and raises (the `none` result
of the embedding) rather than returning `false`, while on the same state
`get_total_record_count` returns `-1` and `get_record_count` returns
`0`. -/
theorem claim_c9_next_record_none (α : Type) (sr cur mx rc : Nat) :
    next_record (⟨none, sr, cur, mx, rc⟩ : KoshFCSSearchResultSet α) = none ∧
    get_total_record_count
      (⟨none, sr, cur, mx, rc⟩ : KoshFCSSearchResultSet α) = -1 ∧
    get_record_count
      (⟨none, sr, cur, mx, rc⟩ : KoshFCSSearchResultSet α) = 0 :=
  ⟨rfl, rfl, rfl⟩

/-- C10: when one marker kind occurs in the text without the other, the
decoding loop's guard fails on its first test, so the text is returned
verbatim (the unmatched marker characters included) and no span is
emitted. -/
theorem claim_c10_unmatched_marker (t : List Char)
    (h : (occursIn markerS t = true ∧ occursIn markerE t = false) ∨
         (occursIn markerE t = true ∧ occursIn markerS t = false)) :
    decodeHighlights t = some (t, []) := by
  rcases h with ⟨_, hE⟩ | ⟨_, hS⟩
  · simp [decodeHighlights, decodeLoop, hE]
  · simp [decodeHighlights, decodeLoop, hS]

/-- C10 witness: a start marker followed by text with no end marker is
returned verbatim with no spans. -/
theorem claim_c10_unmatched_marker_witness :
    (occursIn markerS (markerS ++ "hit".toList) = true ∧
     occursIn markerE (markerS ++ "hit".toList) = false) ∧
    decodeHighlights (markerS ++ "hit".toList)
      = some (markerS ++ "hit".toList, []) :=
  ⟨⟨by decide, by decide⟩,
   claim_c10_unmatched_marker _ (Or.inl ⟨by decide, by decide⟩)⟩
